import Mathlib

/-!
Shallow embedding of the pricing-game core of `src/barilla.py`: the
demand model with the one-sided price-gap penalty (lines 68-96), the
payoff-grid build over the Cartesian product of the two discount grids
(lines 74-110), and the best-response / Nash-point search done by the
pandas pivot + `idxmax` + closeness loop (lines 112-128).

Floating-point numbers are modelled as real numbers; `x ** e` is
`Real.rpow`.  The pandas pivot of the simulation data frame indexed by
(pl_disc, bar_disc) is a dense table whose entry at (d, b) is the
profit computed at those discounts, its rows/columns being the grids in
ascending order (the grids supplied by the app, `np.arange` based, are
strictly increasing and duplicate-free, and `pivot` sorts its labels);
the `idxmax` series are embedded as association lists keyed by the grid
values, built by a first-maximum scan, and `np.isclose` by its
documented formula `|a - b| <= atol + rtol * |b|` with the default
tolerances `atol = 1e-8`, `rtol = 1e-5`.
-/

namespace Barilla

noncomputable section

/-- Constant from `barilla.py` line 69: the private-label base price is 3%
below Barilla's wholesale price. -/
def PL_BASE_FACTOR : ℝ := 0.97

/-- Constant from `barilla.py` line 70: floor on transactional prices. -/
def MIN_PRICE : ℝ := 0.01

/-- Constant from `barilla.py` line 71: the penalty triggers when Barilla is
more than 5% pricier than the private label. -/
def GAP_THRESHOLD : ℝ := 1.05

/-- Constant from `barilla.py` line 72: demand multiplier applied to Barilla
when the gap threshold is exceeded. -/
def PENALTY : ℝ := 0.70

/-- The slider-supplied simulation parameters (`barilla.py` lines 49-62). -/
structure Params where
  base_demand : ℝ
  wholesale_price : ℝ
  cogs : ℝ
  elasticity : ℝ
  cross_elasticity : ℝ

/-- `bar_base = wholesale_price` (`barilla.py` line 79). -/
def barBase (P : Params) : ℝ := P.wholesale_price

/-- `pl_base = wholesale_price * PL_BASE_FACTOR` (`barilla.py` line 80). -/
def plBase (P : Params) : ℝ := P.wholesale_price * PL_BASE_FACTOR

/-- `bar_price = max(MIN_PRICE, bar_base - bar_disc)` (`barilla.py` line 83). -/
def barPrice (P : Params) (bar_disc : ℝ) : ℝ := max MIN_PRICE (barBase P - bar_disc)

/-- `pl_price = max(MIN_PRICE, pl_base - pl_disc)` (`barilla.py` line 84). -/
def plPrice (P : Params) (pl_disc : ℝ) : ℝ := max MIN_PRICE (plBase P - pl_disc)

/-- `price_ratio = bar_price / pl_price if pl_price > 0 else 1.0`
(`barilla.py` line 87). -/
def priceRatioOf (bar_price pl_price : ℝ) : ℝ :=
  if pl_price > 0 then bar_price / pl_price else 1

/-- `penalty = PENALTY if price_ratio > GAP_THRESHOLD else 1.0`
(`barilla.py` line 88). -/
def penaltyOf (price_ratio : ℝ) : ℝ :=
  if price_ratio > GAP_THRESHOLD then PENALTY else 1

/-- Barilla demand (`barilla.py` lines 91-93): constant-elasticity factors
for own and competitor price, then the one-way penalty multiplier. -/
def barDemand (P : Params) (bar_disc pl_disc : ℝ) : ℝ :=
  P.base_demand * (barPrice P bar_disc / barBase P) ^ P.elasticity
    * (plPrice P pl_disc / plBase P) ^ P.cross_elasticity
    * penaltyOf (priceRatioOf (barPrice P bar_disc) (plPrice P pl_disc))

/-- Private-label demand (`barilla.py` lines 95-96): same elasticities with
the roles swapped, and no penalty multiplier. -/
def plDemand (P : Params) (bar_disc pl_disc : ℝ) : ℝ :=
  P.base_demand * (plPrice P pl_disc / plBase P) ^ P.elasticity
    * (barPrice P bar_disc / barBase P) ^ P.cross_elasticity

/-- `bar_profit = (bar_price - cogs) * bar_demand` (`barilla.py` line 99). -/
def barProfit (P : Params) (bar_disc pl_disc : ℝ) : ℝ :=
  (barPrice P bar_disc - P.cogs) * barDemand P bar_disc pl_disc

/-- `pl_profit = (pl_price - cogs) * pl_demand` (`barilla.py` line 100),
with the same `cogs` field as `barProfit`. -/
def plProfit (P : Params) (bar_disc pl_disc : ℝ) : ℝ :=
  (plPrice P pl_disc - P.cogs) * plDemand P bar_disc pl_disc

/-- The generic demand contract of spec section 4.1, factored from the inline
code of `barilla.py` lines 87-96: both constant-elasticity ratio factors, and
the penalty multiplier exactly when it is requested and the guarded own/comp
price ratio exceeds the threshold.  The zero-competitor-price fallback of
line 87 is kept. -/
def demand (base_demand own_price own_base comp_price comp_base own_e cross_e : ℝ)
    (apply_penalty : Bool) (gap_threshold penalty_factor : ℝ) : ℝ :=
  base_demand * (own_price / own_base) ^ own_e * (comp_price / comp_base) ^ cross_e *
    (if apply_penalty ∧ (if comp_price > 0 then own_price / comp_price else 1) > gap_threshold
      then penalty_factor else 1)

/-- One row appended at `barilla.py` lines 102-108 (the constant category
label is dropped: it carries no data). -/
structure Cell where
  bar_disc : ℝ
  pl_disc : ℝ
  bar_profit : ℝ
  pl_profit : ℝ

/-- The cell built for one `(bar_disc, pl_disc)` pair (`barilla.py`
lines 78-108). -/
def mkCell (P : Params) (bar_disc pl_disc : ℝ) : Cell :=
  { bar_disc := bar_disc, pl_disc := pl_disc,
    bar_profit := barProfit P bar_disc pl_disc,
    pl_profit := plProfit P bar_disc pl_disc }

/-- The double loop of `barilla.py` lines 75-108: outer loop over the Barilla
grid, inner loop over the private-label grid, one cell per pair. -/
def buildGrid (P : Params) (barilla_grid pl_grid : List ℝ) : List Cell :=
  barilla_grid.flatMap fun b => pl_grid.map fun d => mkCell P b d

/-- `Series.idxmax`: the first element of the list attaining the maximal
value of `f`, `none` on an empty list.  The scan replaces the running best
only on a strict increase, so ties keep the earliest element. -/
def argmaxFirst (f : ℝ → ℝ) : List ℝ → Option ℝ
  | [] => none
  | x :: xs => some (xs.foldl (fun best y => if f best < f y then y else best) x)

/-- Label lookup in a pandas Series embedded as an association list:
`some` of the first value stored under the key, `none` when the key is not
in the index. -/
def lookupKey (d : ℝ) : List (ℝ × ℝ) → Option ℝ
  | [] => none
  | p :: ps => if p.1 = d then some p.2 else lookupKey d ps

/-- `barilla_best_response = barilla_matrix.idxmax(axis=1)` (`barilla.py`
line 116): for each private-label discount row, the first Barilla-grid
discount maximising Barilla profit in that row. -/
def barilla_best_response (P : Params) (barilla_grid pl_grid : List ℝ) : List (ℝ × ℝ) :=
  pl_grid.filterMap fun d =>
    (argmaxFirst (fun b => barProfit P b d) barilla_grid).map fun b => (d, b)

/-- `pl_best_response = pl_matrix.idxmax(axis=0)` (`barilla.py` line 117):
for each Barilla discount column, the first private-label-grid discount
maximising private-label profit in that column. -/
def pl_best_response (P : Params) (barilla_grid pl_grid : List ℝ) : List (ℝ × ℝ) :=
  barilla_grid.filterMap fun b =>
    (argmaxFirst (fun d => plProfit P b d) pl_grid).map fun d => (b, d)

/-- `np.isclose(a, b)` with numpy's default tolerances. -/
def isClose (a b : ℝ) : Prop := |a - b| ≤ 1e-8 + 1e-5 * |b|

open scoped Classical

/-- One iteration of the Nash loop body (`barilla.py` lines 121-128):
`none` replays the two `continue`s on a missing index label, and the pair
`(pl_disc, bar_disc)` is produced when the private-label best response to
`bar_disc` is numerically close to `pl_disc`. -/
def nashStep (P : Params) (barilla_grid pl_grid : List ℝ) (pl_disc : ℝ) :
    Option (ℝ × ℝ) :=
  (lookupKey pl_disc (barilla_best_response P barilla_grid pl_grid)).bind
    fun bar_disc =>
      (lookupKey bar_disc (pl_best_response P barilla_grid pl_grid)).bind
        fun pl_best =>
          if isClose pl_disc pl_best then some (pl_disc, bar_disc) else none

/-- The Nash loop of `barilla.py` lines 119-128: iterate the private-label
grid in its given (ascending) order, appending the point each non-skipped,
close iteration emits. -/
def nash_points (P : Params) (barilla_grid pl_grid : List ℝ) : List (ℝ × ℝ) :=
  pl_grid.filterMap (nashStep P barilla_grid pl_grid)

/-! ### Helper lemmas on the first-maximum scan and on lookups -/

/-- The running best of the scan is one of the scanned elements. -/
lemma scanMax_mem (f : ℝ → ℝ) (xs : List ℝ) :
    ∀ x : ℝ, xs.foldl (fun best y => if f best < f y then y else best) x ∈ x :: xs := by
  induction xs with
  | nil => intro x; simp
  | cons y ys ih =>
    intro x
    simp only [List.foldl_cons]
    have h := ih (if f x < f y then y else x)
    rw [List.mem_cons] at h
    rcases h with h | h
    · rw [h]
      split
      · exact List.mem_cons_of_mem _ (List.mem_cons_self _ _)
      · exact List.mem_cons_self _ _
    · exact List.mem_cons_of_mem _ (List.mem_cons_of_mem _ h)

/-- The running best of the scan attains the maximal value of `f`. -/
lemma le_scanMax (f : ℝ → ℝ) (xs : List ℝ) :
    ∀ x : ℝ, ∀ z ∈ x :: xs,
      f z ≤ f (xs.foldl (fun best y => if f best < f y then y else best) x) := by
  induction xs with
  | nil =>
    intro x z hz
    rw [List.mem_singleton] at hz
    simp [hz]
  | cons y ys ih =>
    intro x z hz
    simp only [List.foldl_cons]
    have hstep_x : f x ≤ f (if f x < f y then y else x) := by
      split
      · next h => exact le_of_lt h
      · exact le_refl _
    have hstep_y : f y ≤ f (if f x < f y then y else x) := by
      split
      · exact le_refl _
      · next h => exact le_of_not_lt h
    have hbest := ih (if f x < f y then y else x) _
      (List.mem_cons_self (if f x < f y then y else x) ys)
    rcases List.mem_cons.mp hz with rfl | hz'
    · exact le_trans hstep_x hbest
    rcases List.mem_cons.mp hz' with rfl | hz''
    · exact le_trans hstep_y hbest
    · exact ih _ z (List.mem_cons_of_mem _ hz'')

/-- On a strictly increasing list the scan keeps the earliest maximiser,
which is then the least element among the ties. -/
lemma scanMax_tie_lowest (f : ℝ → ℝ) (xs : List ℝ) :
    ∀ x : ℝ, List.Sorted (· < ·) (x :: xs) →
      ∀ z ∈ x :: xs,
        f z = f (xs.foldl (fun best y => if f best < f y then y else best) x) →
        xs.foldl (fun best y => if f best < f y then y else best) x ≤ z := by
  induction xs with
  | nil =>
    intro x _ z hz _
    rw [List.mem_singleton] at hz
    simp [hz]
  | cons y ys ih =>
    intro x hs z hz heq
    rw [List.sorted_cons] at hs
    obtain ⟨hx_lt, hs'⟩ := hs
    simp only [List.foldl_cons] at heq ⊢
    by_cases hxy : f x < f y
    · rw [if_pos hxy] at heq ⊢
      have hy_le := le_scanMax f ys y y (List.mem_cons_self y ys)
      rcases List.mem_cons.mp hz with rfl | hz'
      · exact absurd heq (by linarith)
      · exact ih y hs' z hz' heq
    · rw [if_neg hxy] at heq ⊢
      push_neg at hxy
      have hsx : List.Sorted (· < ·) (x :: ys) := by
        rw [List.sorted_cons]
        exact ⟨fun b hb => hx_lt b (List.mem_cons_of_mem _ hb),
          (List.sorted_cons.mp hs').2⟩
      rcases List.mem_cons.mp hz with rfl | hz'
      · exact ih z hsx z (List.mem_cons_self z ys) heq
      rcases List.mem_cons.mp hz' with rfl | hz''
      · have hx_le := le_scanMax f ys x x (List.mem_cons_self x ys)
        have hfx : f x = f (ys.foldl (fun best y => if f best < f y then y else best) x) :=
          le_antisymm hx_le (heq ▸ hxy)
        have hres := ih x hsx x (List.mem_cons_self x ys) hfx
        exact le_of_lt (lt_of_le_of_lt hres (hx_lt z (List.mem_cons_self z ys)))
      · exact ih x hsx z (List.mem_cons_of_mem _ hz'') heq

/-- `argmaxFirst` returns an element attaining the maximum of `f`. -/
lemma argmaxFirst_eq_some (f : ℝ → ℝ) (l : List ℝ) (m : ℝ)
    (h : argmaxFirst f l = some m) : m ∈ l ∧ ∀ z ∈ l, f z ≤ f m := by
  cases l with
  | nil => simp [argmaxFirst] at h
  | cons x xs =>
    simp only [argmaxFirst, Option.some.injEq] at h
    subst h
    exact ⟨scanMax_mem f xs x, le_scanMax f xs x⟩

/-- On a strictly increasing list, `argmaxFirst` returns the least maximiser. -/
lemma argmaxFirst_tie_lowest (f : ℝ → ℝ) (l : List ℝ) (m : ℝ)
    (hs : List.Sorted (· < ·) l) (h : argmaxFirst f l = some m) :
    ∀ z ∈ l, f z = f m → m ≤ z := by
  cases l with
  | nil => simp [argmaxFirst] at h
  | cons x xs =>
    simp only [argmaxFirst, Option.some.injEq] at h
    subst h
    exact scanMax_tie_lowest f xs x hs

/-- Looking a key up in a response map built over `l` recovers the map's
generator at that key, and shows the key is in `l`. -/
lemma lookupKey_filterMap (g : ℝ → Option ℝ) (l : List ℝ) (d b : ℝ)
    (h : lookupKey d (l.filterMap fun a => (g a).map fun v => (a, v)) = some b) :
    d ∈ l ∧ g d = some b := by
  induction l with
  | nil => simp [lookupKey] at h
  | cons a as ih =>
    rw [List.filterMap_cons] at h
    cases hg : g a with
    | none =>
      rw [hg] at h
      simp only [Option.map_none'] at h
      exact ⟨List.mem_cons_of_mem _ (ih h).1, (ih h).2⟩
    | some v =>
      rw [hg] at h
      simp only [Option.map_some'] at h
      rw [lookupKey] at h
      by_cases had : a = d
      · subst had
        rw [if_pos rfl] at h
        simp only [Option.some.injEq] at h
        exact ⟨List.mem_cons_self _ _, h ▸ hg⟩
      · rw [if_neg had] at h
        exact ⟨List.mem_cons_of_mem _ (ih h).1, (ih h).2⟩

/-- A `filterMap` whose emitted pairs carry the iterated value as first
component projects, on first components, to a sublist of the iterated list. -/
lemma map_fst_filterMap_sublist (F : ℝ → Option (ℝ × ℝ))
    (hF : ∀ a p, F a = some p → p.1 = a) (l : List ℝ) :
    ((l.filterMap F).map Prod.fst).Sublist l := by
  induction l with
  | nil => simp
  | cons a as ih =>
    rw [List.filterMap_cons]
    cases hFa : F a with
    | none => exact ih.cons a
    | some p =>
      have hp : p.1 = a := hF a p hFa
      simp only [List.map_cons, hp]
      exact ih.cons₂ a

/-- `MIN_PRICE` is a positive floor. -/
lemma MIN_PRICE_pos : (0 : ℝ) < MIN_PRICE := by norm_num [MIN_PRICE]

/-- The "Pasta (Core)" default slider values (`barilla.py` lines 14-22),
used to instantiate universally quantified theorems. -/
def P0 : Params := ⟨18000, 1.20, 0.55, -2.2, 0.9⟩

/-- The grid build has one cell per pair of the grids' Cartesian product. -/
lemma length_buildGrid (P : Params) (barilla_grid pl_grid : List ℝ) :
    (buildGrid P barilla_grid pl_grid).length
      = barilla_grid.length * pl_grid.length := by
  induction barilla_grid with
  | nil => simp [buildGrid]
  | cons b bs ih =>
    simp only [buildGrid, List.flatMap_cons, List.length_append, List.length_map,
      List.length_cons] at ih ⊢
    rw [ih]
    ring

/-- The stored discount pairs are exactly the Cartesian product, in build
order. -/
lemma map_discounts_buildGrid (P : Params) (barilla_grid pl_grid : List ℝ) :
    (buildGrid P barilla_grid pl_grid).map (fun c => (c.bar_disc, c.pl_disc))
      = barilla_grid.flatMap fun b => pl_grid.map fun d => (b, d) := by
  simp [buildGrid, List.map_flatMap, List.map_map, mkCell, Function.comp_def]

/-! ### The claims -/

/-- C7: each player's transactional price is `max(min_price, base - discount)`
(the Barilla base is the wholesale price, the private-label base 3% below it),
so with a non-negative discount the price is at least `MIN_PRICE` and never
zero or negative (`barilla.py` lines 83-84). -/
theorem transactional_price_clamped (P : Params) (disc : ℝ) (hd : 0 ≤ disc) :
    barPrice P disc = max MIN_PRICE (P.wholesale_price - disc) ∧
    plPrice P disc = max MIN_PRICE (P.wholesale_price * PL_BASE_FACTOR - disc) ∧
    MIN_PRICE ≤ barPrice P disc ∧ 0 < barPrice P disc ∧
    MIN_PRICE ≤ plPrice P disc ∧ 0 < plPrice P disc :=
  ⟨rfl, rfl, le_max_left _ _, lt_of_lt_of_le MIN_PRICE_pos (le_max_left _ _),
    le_max_left _ _, lt_of_lt_of_le MIN_PRICE_pos (le_max_left _ _)⟩

/-- C7 witness at the default parameters and a zero discount. -/
theorem transactional_price_clamped_witness :
    (0 : ℝ) ≤ 0 ∧
      (barPrice P0 0 = max MIN_PRICE (P0.wholesale_price - 0) ∧
        plPrice P0 0 = max MIN_PRICE (P0.wholesale_price * PL_BASE_FACTOR - 0) ∧
        MIN_PRICE ≤ barPrice P0 0 ∧ 0 < barPrice P0 0 ∧
        MIN_PRICE ≤ plPrice P0 0 ∧ 0 < plPrice P0 0) :=
  ⟨le_refl 0, transactional_price_clamped P0 0 (le_refl 0)⟩

/-- C10: the clamped private-label price is at least `MIN_PRICE`, hence
strictly positive, so the division in the price ratio is well defined and the
`else 1.0` fallback of `barilla.py` line 87 is unreachable. -/
theorem pl_price_guard_unreachable (P : Params) (pl_disc : ℝ) (hd : 0 ≤ pl_disc) :
    MIN_PRICE ≤ plPrice P pl_disc ∧ 0 < plPrice P pl_disc ∧
      ∀ bar_price : ℝ,
        priceRatioOf bar_price (plPrice P pl_disc)
          = bar_price / plPrice P pl_disc :=
  ⟨le_max_left _ _, lt_of_lt_of_le MIN_PRICE_pos (le_max_left _ _),
    fun _ => if_pos (lt_of_lt_of_le MIN_PRICE_pos (le_max_left _ _))⟩

/-- C10 witness at the default parameters and a zero discount. -/
theorem pl_price_guard_unreachable_witness :
    (0 : ℝ) ≤ 0 ∧
      (MIN_PRICE ≤ plPrice P0 0 ∧ 0 < plPrice P0 0 ∧
        ∀ bar_price : ℝ,
          priceRatioOf bar_price (plPrice P0 0) = bar_price / plPrice P0 0) :=
  ⟨le_refl 0, pl_price_guard_unreachable P0 0 (le_refl 0)⟩

/-- C3: the grid build yields exactly m×n cells, one per element of the
Cartesian product of the grids, each storing exactly the coordinates it was
built from (`barilla.py` lines 75-110). -/
theorem grid_completeness (P : Params) (barilla_grid pl_grid : List ℝ) :
    (buildGrid P barilla_grid pl_grid).length
        = barilla_grid.length * pl_grid.length ∧
      (buildGrid P barilla_grid pl_grid).map (fun c => (c.bar_disc, c.pl_disc))
        = barilla_grid.flatMap fun b => pl_grid.map fun d => (b, d) :=
  ⟨length_buildGrid P barilla_grid pl_grid,
    map_discounts_buildGrid P barilla_grid pl_grid⟩

/-- C8: every cell of the built grid carries profits
`(price - cogs) * demand`, with the one shared `cogs` field for both players
(`barilla.py` lines 98-100). -/
theorem profit_formula (P : Params) (barilla_grid pl_grid : List ℝ) :
    ∀ c ∈ buildGrid P barilla_grid pl_grid,
      c.bar_profit
          = (barPrice P c.bar_disc - P.cogs) * barDemand P c.bar_disc c.pl_disc ∧
        c.pl_profit
          = (plPrice P c.pl_disc - P.cogs) * plDemand P c.bar_disc c.pl_disc := by
  intro c hc
  simp only [buildGrid, List.mem_flatMap, List.mem_map] at hc
  obtain ⟨b, -, d, -, rfl⟩ := hc
  exact ⟨rfl, rfl⟩

/-- C8 witness: the one cell of a 1×1 grid at the default parameters. -/
theorem profit_formula_witness :
    mkCell P0 0 0 ∈ buildGrid P0 [0] [0] ∧
      ((mkCell P0 0 0).bar_profit
          = (barPrice P0 (mkCell P0 0 0).bar_disc - P0.cogs)
            * barDemand P0 (mkCell P0 0 0).bar_disc (mkCell P0 0 0).pl_disc ∧
        (mkCell P0 0 0).pl_profit
          = (plPrice P0 (mkCell P0 0 0).pl_disc - P0.cogs)
            * plDemand P0 (mkCell P0 0 0).bar_disc (mkCell P0 0 0).pl_disc) :=
  ⟨by simp [buildGrid],
    profit_formula P0 [0] [0] (mkCell P0 0 0) (by simp [buildGrid])⟩

/-- Slider values violating the wholesale-price positivity precondition. -/
def badParams : Params := ⟨18000, -1, 0.55, -2.2, 0.9⟩

/-- C9 counterexample: with `wholesale_price = -1 ≤ 0` and the 1×1 grids the
simulation still computes its grid cell — `barilla.py` lines 74-110 contain
no validation, so the run is not rejected before cells are computed. -/
theorem invalid_params_not_rejected :
    badParams.wholesale_price ≤ 0 ∧
      (buildGrid badParams [0] [0]).length = 1 ∧
      (buildGrid badParams [0] [0]).map (fun c => (c.bar_disc, c.pl_disc))
        = [(0, 0)] :=
  ⟨by norm_num [badParams], by simp [buildGrid],
    by simp [buildGrid, mkCell]⟩

/-- C9 amended: no upfront validation or InvalidParameter rejection exists.
For every parameter record whose wholesale price is nonzero — the class where
the base-price divisions of `barilla.py` lines 91-96 are defined, which
includes precondition-violating records such as `wholesale_price = -1` — the
grid build proceeds and computes all `m * n` cells, each carrying its grid
coordinates.  (`wholesale_price = 0` is excluded: there the first cell's
base-price division itself fails mid-build, which is still not an upfront
rejection.) -/
theorem no_upfront_validation (P : Params) (barilla_grid pl_grid : List ℝ)
    (hw : P.wholesale_price ≠ 0) :
    (buildGrid P barilla_grid pl_grid).length
        = barilla_grid.length * pl_grid.length ∧
      (buildGrid P barilla_grid pl_grid).map (fun c => (c.bar_disc, c.pl_disc))
        = barilla_grid.flatMap fun b => pl_grid.map fun d => (b, d) :=
  ⟨length_buildGrid P barilla_grid pl_grid,
    map_discounts_buildGrid P barilla_grid pl_grid⟩

/-- C9 amended witness: the invalid record with `wholesale_price = -1` has a
nonzero wholesale price, and its 1×1 build computes its full grid. -/
theorem no_upfront_validation_witness :
    badParams.wholesale_price ≠ 0 ∧
      ((buildGrid badParams [0] [0]).length
          = ([0] : List ℝ).length * ([0] : List ℝ).length ∧
        (buildGrid badParams [0] [0]).map (fun c => (c.bar_disc, c.pl_disc))
          = ([0] : List ℝ).flatMap fun b => ([0] : List ℝ).map fun d => (b, d)) :=
  ⟨by norm_num [badParams],
    no_upfront_validation badParams [0] [0] (by norm_num [badParams])⟩

/-- C1: for positive prices and base prices, demand is base demand times both
constant-elasticity ratio factors, and the product is multiplied by the
penalty factor exactly when the penalty is requested and
`own_price / comp_price` exceeds the gap threshold, otherwise left unchanged
(`barilla.py` lines 87-96). -/
theorem demand_formula_penalty_iff (base_demand own_price own_base comp_price
    comp_base own_e cross_e gap_threshold penalty_factor : ℝ)
    (apply_penalty : Bool) (hop : 0 < own_price) (hob : 0 < own_base)
    (hcp : 0 < comp_price) (hcb : 0 < comp_base) :
    (apply_penalty = true ∧ own_price / comp_price > gap_threshold →
      demand base_demand own_price own_base comp_price comp_base own_e cross_e
          apply_penalty gap_threshold penalty_factor
        = base_demand * (own_price / own_base) ^ own_e
            * (comp_price / comp_base) ^ cross_e * penalty_factor) ∧
    (¬(apply_penalty = true ∧ own_price / comp_price > gap_threshold) →
      demand base_demand own_price own_base comp_price comp_base own_e cross_e
          apply_penalty gap_threshold penalty_factor
        = base_demand * (own_price / own_base) ^ own_e
            * (comp_price / comp_base) ^ cross_e) := by
  have hguard : (if comp_price > 0 then own_price / comp_price else 1)
      = own_price / comp_price := if_pos hcp
  constructor
  · intro h
    unfold demand
    rw [hguard, if_pos h]
  · intro h
    unfold demand
    rw [hguard, if_neg h, mul_one]

/-- C1 witness: penalty requested and triggered at the chosen prices. -/
theorem demand_formula_penalty_iff_witness :
    ((0 : ℝ) < 2 ∧ (0 : ℝ) < 1) ∧
      ((true = true ∧ (2 : ℝ) / 1 > 1.5 →
        demand 3 2 1 1 1 (-2) 1 true 1.5 0.7
          = 3 * ((2 : ℝ) / 1) ^ (-2 : ℝ) * ((1 : ℝ) / 1) ^ (1 : ℝ) * 0.7) ∧
      (¬(true = true ∧ (2 : ℝ) / 1 > 1.5) →
        demand 3 2 1 1 1 (-2) 1 true 1.5 0.7
          = 3 * ((2 : ℝ) / 1) ^ (-2 : ℝ) * ((1 : ℝ) / 1) ^ (1 : ℝ))) :=
  ⟨⟨by norm_num, by norm_num⟩,
    demand_formula_penalty_iff 3 2 1 1 1 (-2) 1 1.5 0.7 true
      (by norm_num) (by norm_num) (by norm_num) (by norm_num)⟩

/-- C5: the competitive-gap penalty multiplies Barilla's demand alone, and
only when the price ratio exceeds the threshold; the private label's demand
always equals the penalty-free demand (`barilla.py` lines 86-96). -/
theorem penalty_only_on_barilla (P : Params) (bar_disc pl_disc : ℝ) :
    (priceRatioOf (barPrice P bar_disc) (plPrice P pl_disc) > GAP_THRESHOLD →
      barDemand P bar_disc pl_disc
        = PENALTY * demand P.base_demand (barPrice P bar_disc) (barBase P)
            (plPrice P pl_disc) (plBase P) P.elasticity P.cross_elasticity
            false GAP_THRESHOLD PENALTY) ∧
    (¬ priceRatioOf (barPrice P bar_disc) (plPrice P pl_disc) > GAP_THRESHOLD →
      barDemand P bar_disc pl_disc
        = demand P.base_demand (barPrice P bar_disc) (barBase P)
            (plPrice P pl_disc) (plBase P) P.elasticity P.cross_elasticity
            false GAP_THRESHOLD PENALTY) ∧
    plDemand P bar_disc pl_disc
      = demand P.base_demand (plPrice P pl_disc) (plBase P)
          (barPrice P bar_disc) (barBase P) P.elasticity P.cross_elasticity
          false GAP_THRESHOLD PENALTY := by
  have hfalse : ∀ op ob cp cb e x : ℝ,
      demand P.base_demand op ob cp cb e x false GAP_THRESHOLD PENALTY
        = P.base_demand * (op / ob) ^ e * (cp / cb) ^ x := by
    intro op ob cp cb e x
    unfold demand
    rw [if_neg, mul_one]
    rintro ⟨h, -⟩
    exact Bool.false_ne_true h
  refine ⟨fun h => ?_, fun h => ?_, ?_⟩
  · unfold barDemand penaltyOf
    rw [if_pos h, hfalse]
    ring
  · unfold barDemand penaltyOf
    rw [if_neg h, hfalse, mul_one]
  · unfold plDemand
    rw [hfalse]

/-- C6: for a fixed competitor price, negative own elasticity, positive
inputs and an unchanged penalty regime, demand strictly decreases as the own
price increases (`barilla.py` lines 91-93; spec testable property 1). -/
theorem demand_strict_decreasing (base_demand own_base comp_price comp_base
    own_e cross_e gap_threshold penalty_factor p1 p2 : ℝ)
    (apply_penalty : Bool) (hbd : 0 < base_demand) (hob : 0 < own_base)
    (hcp : 0 < comp_price) (hcb : 0 < comp_base) (hpf : 0 < penalty_factor)
    (he : own_e < 0) (hp1 : 0 < p1) (h12 : p1 < p2)
    (hreg : p1 / comp_price > gap_threshold ↔ p2 / comp_price > gap_threshold) :
    demand base_demand p2 own_base comp_price comp_base own_e cross_e
        apply_penalty gap_threshold penalty_factor
      < demand base_demand p1 own_base comp_price comp_base own_e cross_e
          apply_penalty gap_threshold penalty_factor := by
  have hg2 : (if comp_price > 0 then p2 / comp_price else 1) = p2 / comp_price :=
    if_pos hcp
  have hg1 : (if comp_price > 0 then p1 / comp_price else 1) = p1 / comp_price :=
    if_pos hcp
  unfold demand
  rw [hg2, hg1]
  have hpen : (if apply_penalty = true ∧ p2 / comp_price > gap_threshold
        then penalty_factor else 1)
      = (if apply_penalty = true ∧ p1 / comp_price > gap_threshold
          then penalty_factor else 1) :=
    if_congr (and_congr_right fun _ => hreg.symm) rfl rfl
  rw [hpen]
  have hpen_pos : 0 < (if apply_penalty = true ∧ p1 / comp_price > gap_threshold
      then penalty_factor else 1) := by
    split
    · exact hpf
    · norm_num
  have hK : 0 < (comp_price / comp_base) ^ cross_e :=
    Real.rpow_pos_of_pos (div_pos hcp hcb) _
  have hA : (p2 / own_base) ^ own_e < (p1 / own_base) ^ own_e :=
    Real.rpow_lt_rpow_of_neg (div_pos hp1 hob)
      ((div_lt_div_iff_of_pos_right hob).mpr h12) he
  exact mul_lt_mul_of_pos_right
    (mul_lt_mul_of_pos_right (mul_lt_mul_of_pos_left hA hbd) hK) hpen_pos

/-- C6 witness: prices 1 < 2 at unit bases, elasticity −1, penalty regime
unchanged (the gap condition fails at both prices). -/
theorem demand_strict_decreasing_witness :
    ((0 : ℝ) < 1 ∧ (-1 : ℝ) < 0 ∧ (1 : ℝ) < 2 ∧
        ((1 : ℝ) / 1 > 2 ↔ (2 : ℝ) / 1 > 2)) ∧
      demand 1 2 1 1 1 (-1) 0 false 2 1 < demand 1 1 1 1 1 (-1) 0 false 2 1 :=
  ⟨⟨by norm_num, by norm_num, by norm_num, by norm_num⟩,
    demand_strict_decreasing 1 1 1 1 (-1) 0 2 1 1 2 false (by norm_num)
      (by norm_num) (by norm_num) (by norm_num) (by norm_num) (by norm_num)
      (by norm_num) (by norm_num) (by norm_num)⟩

/-- What one Nash-loop iteration emits: the iterated discount paired with
its Barilla best response, guarded by the closeness test. -/
lemma nashStep_eq_some (P : Params) (barilla_grid pl_grid : List ℝ)
    (a : ℝ) (p : ℝ × ℝ) :
    nashStep P barilla_grid pl_grid a = some p ↔
      ∃ b, lookupKey a (barilla_best_response P barilla_grid pl_grid) = some b ∧
        (∃ pl_best,
          lookupKey b (pl_best_response P barilla_grid pl_grid) = some pl_best ∧
            isClose a pl_best) ∧
        p = (a, b) := by
  simp only [nashStep, Option.bind_eq_some, Option.ite_none_right_eq_some,
    Option.some.injEq]
  constructor
  · rintro ⟨b, hb, pb, hpb, hcl, rfl⟩
    exact ⟨b, hb, ⟨pb, hpb, hcl⟩, rfl⟩
  · rintro ⟨b, hb, ⟨pb, hpb, hcl⟩, rfl⟩
    exact ⟨b, hb, pb, hpb, hcl, rfl⟩

/-- C4: over ascending grids, each best-response map picks, among all
strategies tied at the maximal profit of its row (respectively column), the
lowest discount value — the first maximum found by the `idxmax` scan
(`barilla.py` lines 113-117). -/
theorem best_response_lowest_tiebreak (P : Params) (barilla_grid pl_grid : List ℝ)
    (hbar : List.Sorted (· < ·) barilla_grid)
    (hpl : List.Sorted (· < ·) pl_grid) :
    (∀ d b, lookupKey d (barilla_best_response P barilla_grid pl_grid) = some b →
      b ∈ barilla_grid ∧
        (∀ z ∈ barilla_grid, barProfit P z d ≤ barProfit P b d) ∧
        ∀ z ∈ barilla_grid, barProfit P z d = barProfit P b d → b ≤ z) ∧
    (∀ b d, lookupKey b (pl_best_response P barilla_grid pl_grid) = some d →
      d ∈ pl_grid ∧
        (∀ z ∈ pl_grid, plProfit P b z ≤ plProfit P b d) ∧
        ∀ z ∈ pl_grid, plProfit P b z = plProfit P b d → d ≤ z) := by
  constructor
  · intro d b h
    unfold barilla_best_response at h
    obtain ⟨-, hg⟩ := lookupKey_filterMap _ _ _ _ h
    obtain ⟨hm, hle⟩ := argmaxFirst_eq_some _ _ _ hg
    exact ⟨hm, hle, argmaxFirst_tie_lowest _ _ _ hbar hg⟩
  · intro b d h
    unfold pl_best_response at h
    obtain ⟨-, hg⟩ := lookupKey_filterMap _ _ _ _ h
    obtain ⟨hm, hle⟩ := argmaxFirst_eq_some _ _ _ hg
    exact ⟨hm, hle, argmaxFirst_tie_lowest _ _ _ hpl hg⟩

/-- C4 witness on the ascending 1-element grids at the default parameters. -/
theorem best_response_lowest_tiebreak_witness :
    List.Sorted (· < ·) ([0] : List ℝ) ∧
      ((∀ d b, lookupKey d (barilla_best_response P0 [0] [0]) = some b →
        b ∈ ([0] : List ℝ) ∧
          (∀ z ∈ ([0] : List ℝ), barProfit P0 z d ≤ barProfit P0 b d) ∧
          ∀ z ∈ ([0] : List ℝ), barProfit P0 z d = barProfit P0 b d → b ≤ z) ∧
      (∀ b d, lookupKey b (pl_best_response P0 [0] [0]) = some d →
        d ∈ ([0] : List ℝ) ∧
          (∀ z ∈ ([0] : List ℝ), plProfit P0 b z ≤ plProfit P0 b d) ∧
          ∀ z ∈ ([0] : List ℝ), plProfit P0 b z = plProfit P0 b d → d ≤ z)) :=
  ⟨List.sorted_singleton 0,
    best_response_lowest_tiebreak P0 [0] [0]
      (List.sorted_singleton 0) (List.sorted_singleton 0)⟩

/-- C2: a pair `(d, b)` is emitted as a Nash point iff the Barilla
best-response index maps `d` to `b` and the private-label best response to
`b` is numerically close to `d` (the `np.isclose` test); the emitted list
follows the private-label grid's ascending iteration order, so the
deterministic NashSet ordering is sorted whenever the grid is
(`barilla.py` lines 119-128). -/
theorem nash_points_characterization (P : Params) (barilla_grid pl_grid : List ℝ) :
    (∀ d b : ℝ, (d, b) ∈ nash_points P barilla_grid pl_grid ↔
      lookupKey d (barilla_best_response P barilla_grid pl_grid) = some b ∧
        ∃ pl_best,
          lookupKey b (pl_best_response P barilla_grid pl_grid) = some pl_best ∧
            isClose d pl_best) ∧
    (List.Sorted (· < ·) pl_grid →
      List.Sorted (· < ·) ((nash_points P barilla_grid pl_grid).map Prod.fst)) := by
  constructor
  · intro d b
    constructor
    · intro h
      rw [nash_points, List.mem_filterMap] at h
      obtain ⟨a, -, hstep⟩ := h
      rw [nashStep_eq_some] at hstep
      obtain ⟨b', hb', hclose, hp⟩ := hstep
      rw [Prod.mk.injEq] at hp
      obtain ⟨rfl, rfl⟩ := hp
      exact ⟨hb', hclose⟩
    · intro ⟨hBR, pl_best, hPL, hcl⟩
      have hd : d ∈ pl_grid := by
        unfold barilla_best_response at hBR
        exact (lookupKey_filterMap _ _ _ _ hBR).1
      rw [nash_points, List.mem_filterMap]
      exact ⟨d, hd, (nashStep_eq_some P barilla_grid pl_grid d (d, b)).mpr
        ⟨b, hBR, ⟨pl_best, hPL, hcl⟩, rfl⟩⟩
  · intro hs
    have hsub : ((nash_points P barilla_grid pl_grid).map Prod.fst).Sublist pl_grid := by
      apply map_fst_filterMap_sublist
      intro a p hp
      rw [nashStep_eq_some] at hp
      obtain ⟨b, -, -, rfl⟩ := hp
      rfl
    exact List.Pairwise.sublist hsub hs

end

end Barilla
